import Mathlib

/-!
Verification development for the jmap-mcp repository (Deno/TypeScript).

The core under study is the multi-account session and authentication layer:
credential parsing from environment configuration, the transport auth adapter
(Bearer-to-Basic rewriting and apiUrl repair installed via a fetch intercept),
capability classification at session-open time, the account registry, and the
account-scoped tool handlers in src/tools/email.ts and src/tools/submission.ts.

JavaScript strings are embedded as lists of characters (`Str`); the JS string
operations used by the source (indexOf/substring via takeWhile and take,
split, trim, includes, replace-first-occurrence, btoa) are defined below with
JS semantics.  Fallible code is embedded with `Except Str`.
-/

namespace JmapMcp

/-- JS strings are modelled as lists of characters. -/
abbrev Str := List Char

/-- Converts a Lean string literal to the `Str` embedding. -/
def str (s : String) : Str := s.toList

/-- Whitespace recognized by JS `String.prototype.trim` (the code points the
configuration text can realistically contain). -/
def isJsSpace (c : Char) : Bool :=
  c = ' ' || c = '\t' || c = '\n' || c = '\r' || c = '\x0b' || c = '\x0c'

/-- JS `s.trim()`: strip leading and trailing whitespace. -/
def trim (s : Str) : Str :=
  ((s.dropWhile isJsSpace).reverse.dropWhile isJsSpace).reverse

/-- JS `s.split(sep)` for a one-character separator: split on every
occurrence, keeping empty segments (so `"".split(x) = [""]`). -/
def jsSplitOn (sep : Char) : Str → List Str
  | [] => [[]]
  | c :: rest =>
    if c = sep then [] :: jsSplitOn sep rest
    else
      match jsSplitOn sep rest with
      | [] => [[c]]
      | s :: ss => (c :: s) :: ss

/-- JS `hay.includes(needle)` (substring containment). -/
def containsStr (hay needle : Str) : Bool :=
  if needle.isPrefixOf hay then true
  else
    match hay with
    | [] => false
    | _ :: t => containsStr t needle

/-- JS `hay.replace(needle, repl)`: replace the first occurrence only;
when there is no occurrence the string is returned unchanged. -/
def replaceFirst (hay needle repl : Str) : Str :=
  if needle.isPrefixOf hay then repl ++ hay.drop needle.length
  else
    match hay with
    | [] => []
    | c :: t => c :: replaceFirst t needle repl

/-- JS `parts.join(sep)`. -/
def joinSep (sep : Str) : List Str → Str
  | [] => []
  | [x] => x
  | x :: xs => x ++ sep ++ joinSep sep xs

/-- JS truthiness of an optional string (environment variables, optional
request fields): `undefined` and the empty string are falsy. -/
def jsTruthy : Option Str → Bool
  | none => false
  | some s => !s.isEmpty

/-- The base64 alphabet used by `btoa`. -/
def b64Alphabet : Str :=
  str "ABCDEFGHIJKLMNOPQRSTUVWXYZabcdefghijklmnopqrstuvwxyz0123456789+/"

/-- The base64 digit for a 6-bit value. -/
def b64Char (n : Nat) : Char := b64Alphabet.getD n 'A'

/-- Base64 of a byte sequence, with `=` padding, as produced by `btoa`. -/
def base64Encode : List Nat → Str
  | [] => []
  | [a] => [b64Char (a / 4), b64Char (a % 4 * 16), '=', '=']
  | [a, b] => [b64Char (a / 4), b64Char (a % 4 * 16 + b / 16), b64Char (b % 16 * 4), '=']
  | a :: b :: c :: rest =>
    b64Char (a / 4) :: b64Char (a % 4 * 16 + b / 16) ::
      b64Char (b % 16 * 4 + c / 64) :: b64Char (c % 64) :: base64Encode rest

/-- JS `btoa(s)` on a Latin-1 string: base64 of the character codes. -/
def btoa (s : Str) : Str := base64Encode (s.map Char.toNat)

/-! Section: Credential parser (`parseAccounts` in the server entry file) -/

/-- One parsed account credential (`AccountConfig` in the source): the
account `name` and the stored secret (`bearerToken`), which for multi-account
entries is the whole `name:password` token. -/
structure AccountConfig where
  name : Str
  bearerToken : Str
deriving DecidableEq

/-- The fixed text preceding the 20-character preview in the malformed-token
error thrown by `parseAccounts`. -/
def tokenErrHead : Str :=
  str "invalid token format, expected \"username:password\", got: "

/-- Parses one trimmed multi-account token (the body of the `tokens.map`
callback in `parseAccounts`): requires a `:`; the name is the substring
before the first `:`; an empty name is rejected; the stored secret is the
whole token. -/
def parseToken (token : Str) : Except Str AccountConfig :=
  if !(token.contains ':') then
    .error (tokenErrHead ++ token.take 20)
  else
    let name := token.takeWhile (fun c => c != ':')
    if name.isEmpty then .error (str "account name cannot be empty")
    else .ok { name := name, bearerToken := token }

/-- Maps `parseToken` over the token list, stopping at the first error
(the `tokens.map` whose callback throws). -/
def parseTokenList : List Str → Except Str (List AccountConfig)
  | [] => .ok []
  | t :: ts => do
    let c ← parseToken t
    let cs ← parseTokenList ts
    return c :: cs

/-- Splits the multi-account blob on newlines, trims each entry and drops
entries that are empty after trimming (`.split("\n").map(trim).filter(Boolean)`). -/
def parseTokens (blob : Str) : List Str :=
  ((jsSplitOn '\n' blob).map trim).filter (fun t => !t.isEmpty)

/-- The multi-account branch of `parseAccounts`. -/
def parseAccountsMulti (blob : Str) : Except Str (List AccountConfig) :=
  parseTokenList (parseTokens blob)

/-- The single-account fallback of `parseAccounts`: when the token contains a
`:` the name is the substring before the first `:`, otherwise the sentinel
`"default"`; no emptiness check is performed on the name. -/
def parseAccountsSingle (bearerToken : Str) : List AccountConfig :=
  let name :=
    if bearerToken.contains ':' then bearerToken.takeWhile (fun c => c != ':')
    else str "default"
  [{ name := name, bearerToken := bearerToken }]

/-- `parseAccounts`: the multi-account environment variable wins when truthy
(JS `if (bearerTokens)`), otherwise the single-account variable, otherwise a
configuration error. -/
def parseAccounts (bearerTokens bearerToken : Option Str) :
    Except Str (List AccountConfig) :=
  if jsTruthy bearerTokens then parseAccountsMulti (bearerTokens.getD [])
  else if jsTruthy bearerToken then .ok (parseAccountsSingle (bearerToken.getD []))
  else .error (str "missing required environment variables: JMAP_BEARER_TOKEN or JMAP_BEARER_TOKENS")

/-! Section: Transport auth adapter (`createJAMClient` in the server entry file) -/

/-- JS `secret.split(":", 2)` destructured as `[username, password]`: the
limit-2 split returns the segments before the first `:` and between the
first and second `:` (it does not rejoin the remainder). Used only when the
secret contains a `:`. -/
def jsSplit2 (s : Str) : Str × Str :=
  let first := s.takeWhile (fun c => c != ':')
  let rest := s.drop (first.length + 1)
  (first, rest.takeWhile (fun c => c != ':'))

/-- The adapter's request discrimination: the outbound URL contains `"jmap"`
or the configured session URL's hostname (the hostname is passed in already
extracted, as `new URL(config.sessionUrl).hostname` computes it). -/
def urlMatches (hostname url : Str) : Bool :=
  containsStr url (str "jmap") || containsStr url hostname

/-- Header names are compared case-insensitively, as the `Headers` class
normalizes them. -/
def headerNorm (s : Str) : Str := s.map Char.toLower

/-- JS `headers.has(nm)`. -/
def headersHas (hs : List (Str × Str)) (nm : Str) : Bool :=
  hs.any (fun p => headerNorm p.1 == headerNorm nm)

/-- JS `headers.set(nm, v)`: replace the value of an existing header, or
append the header when absent. -/
def headersSet (hs : List (Str × Str)) (nm v : Str) : List (Str × Str) :=
  if headersHas hs nm then
    hs.map (fun p => if headerNorm p.1 == headerNorm nm then (p.1, v) else p)
  else hs ++ [(nm, v)]

/-- An outbound request as the fetch intercept sees it: the target URL and
the request-init headers. -/
structure AuthRequest where
  url : Str
  headers : List (Str × Str)
deriving DecidableEq

/-- The Authorization rewrite inside the intercept: when an Authorization
header is present it is replaced by Basic auth over the split credentials. -/
def rewriteAuthHeaders (username password : Str) (hs : List (Str × Str)) :
    List (Str × Str) :=
  if headersHas hs (str "Authorization") then
    headersSet hs (str "Authorization")
      (str "Basic " ++ btoa (username ++ ':' :: password))
  else hs

/-- The headers with which an outbound request is forwarded by
`createJAMClient`'s fetch intercept: when the stored secret contains a `:`
the intercept is installed and rewrites Authorization on requests whose URL
matches the configured host; every other request keeps its headers. -/
def adapterRequestHeaders (secret hostname : Str) (req : AuthRequest) :
    List (Str × Str) :=
  if secret.contains ':' then
    let up := jsSplit2 secret
    if urlMatches hostname req.url then rewriteAuthHeaders up.1 up.2 req.headers
    else req.headers
  else req.headers

/-- The apiUrl repair applied to session-discovery responses: when the
reported URL contains both `"http://"` and `":8080"`, rewrite the first
occurrence of each (`replace` replaces first occurrences only); otherwise
the URL is left as is. -/
def repairApiUrl (u : Str) : Str :=
  if containsStr u (str "http://") && containsStr u (str ":8080") then
    replaceFirst (replaceFirst u (str "http://") (str "https://")) (str ":8080") []
  else u

/-! Section: Session initialization and capability classification (`createServer`) -/

/-- The mandatory mail capability identifier. -/
def mailCapability : Str := str "urn:ietf:params:jmap:mail"

/-- The submission capability identifier. -/
def submissionCapability : Str := str "urn:ietf:params:jmap:submission"

/-- The session descriptor fetched at session-open time: the set of
advertised capability identifiers (the keys of `session.capabilities`). -/
structure Session where
  capabilities : List Str
deriving DecidableEq

/-- The account descriptor `session.accounts[accountId]`. -/
structure SessionAccount where
  isReadOnly : Bool
deriving DecidableEq

/-- The per-account result stored in the registry (`AccountInfo` in the
source; the opaque protocol-client handle is not modelled). -/
structure AccountInfo where
  name : Str
  accountId : Str
  isReadOnly : Bool
  hasSubmission : Bool
deriving DecidableEq

/-- Everything the `createServer` loop body consumes for one account: the
configured name, the resolved account id, and the fetched session and
account descriptors. -/
structure AccountInit where
  name : Str
  accountId : Str
  session : Session
  account : SessionAccount
deriving DecidableEq

/-- The error thrown for an account lacking the mail capability. -/
def mailCapErrorMsg (name : Str) : Str :=
  str "account \"" ++ name ++ str "\" does not support jmap mail capabilities"

/-- The body of the per-account initialization loop in `createServer`: fail
when the mail capability is absent, otherwise classify capabilities
(`hasSubmission` is submission-capability presence and not read-only) and
produce the registry entry. -/
def initAccount (a : AccountInit) : Except Str AccountInfo :=
  if !(a.session.capabilities.contains mailCapability) then
    .error (mailCapErrorMsg a.name)
  else
    .ok { name := a.name
          accountId := a.accountId
          isReadOnly := a.account.isReadOnly
          hasSubmission :=
            a.session.capabilities.contains submissionCapability
              && !a.account.isReadOnly }

/-- The account registry: name-to-session mapping in insertion order
(a JS `Map`). -/
abbrev Registry := List (Str × AccountInfo)

/-- The `createServer` initialization loop: initialize every account in
order, aborting the whole startup on the first failure. -/
def initAccounts : List AccountInit → Except Str Registry
  | [] => .ok []
  | a :: rest => do
    let info ← initAccount a
    let tail ← initAccounts rest
    return (a.name, info) :: tail

/-! Section: Account registry lookup (`getAccount` in the tool modules) -/

/-- The configured account names in insertion order (`accountMap.keys()`). -/
def registryKeys (reg : Registry) : List Str := reg.map Prod.fst

/-- JS `accountMap.get(nm)`. -/
def lookupAccount (reg : Registry) (nm : Str) : Option AccountInfo :=
  (reg.find? (fun p => p.1 == nm)).map Prod.snd

/-- The not-found error message of `getAccount`, enumerating every
configured account name. -/
def notFoundMsg (nm : Str) (keys : List Str) : Str :=
  str "account \"" ++ nm ++ str "\" not found. available accounts: "
    ++ joinSep (str ", ") keys

/-- `getAccount` as defined identically in src/tools/email.ts and
src/tools/submission.ts: exact lookup of a requested name (unknown names
fail with the enumerating message), and the first-inserted account when no
name is requested. -/
def getAccount (reg : Registry) (requested : Option Str) :
    Except Str AccountInfo :=
  match requested with
  | some nm =>
    match lookupAccount reg nm with
    | some a => .ok a
    | none => .error (notFoundMsg nm (registryKeys reg))
  | none =>
    match reg.head? with
    | some p => .ok p.2
    | none => .error (str "no accounts configured")

/-- The outcome a tool handler hands to the MCP caller: both variants are
ordinary returned values (the catch block turns thrown errors into a text
result, never a crash). -/
inductive CallResult where
  | success (text : Str)
  | failure (text : Str)
deriving DecidableEq

/-- The try/catch wrapper shared by every tool handler: a thrown error
becomes a structured text result prefixed with the tool's label. -/
def runTool (label : Str) (act : Except Str Str) : CallResult :=
  match act with
  | .ok t => .success t
  | .error m => .failure (label ++ m)

/-- A tool handler that first resolves the account and then runs its body:
the shape of every registered tool. -/
def toolWithAccount (label : Str) (reg : Registry) (requested : Option Str)
    (body : AccountInfo → Except Str Str) : CallResult :=
  runTool label (getAccount reg requested >>= body)

/-! Section: Tool handlers (src/tools/submission.ts, src/tools/email.ts)

Each handler is embedded as a function from its validated arguments to the
`CallResult` returned to the caller together with the trace of protocol
calls it issued, in order.  Server responses (identity lookups, mailbox
discovery, create/update outcomes) are supplied by a `ProtocolEnv`; the
JSON rendering of success payloads is abbreviated to a flat text. -/

/-- An email address object `{name?, email}`. -/
structure EmailAddress where
  name : Option Str
  email : Str
deriving DecidableEq

/-- The `Email.set` create payload a composition handler builds (body values
are recorded by presence; `hasText`/`hasHtml` mirror which of
`bodyValues.text` / `bodyValues.html` were spread in). -/
structure EmailCreatePayload where
  mailboxId : Option Str
  subject : Option Str
  fromAddr : Option (List EmailAddress)
  toAddr : List EmailAddress
  cc : Option (List EmailAddress)
  bcc : Option (List EmailAddress)
  keywords : List (Str × Bool)
  hasText : Bool
  hasHtml : Bool
  inReplyTo : Option (List Str)
  references : Option (List Str)
deriving DecidableEq

/-- One protocol method call issued through the session handle. -/
inductive ProtocolCall where
  | identityGet (accountId : Str) (ids : List Str)
  | mailboxGetDrafts (accountId : Str)
  | emailGet (accountId : Str) (ids : List Str)
  | emailCreate (accountId : Str) (payload : EmailCreatePayload)
  | emailUpdate (accountId : Str) (update : List (Str × List (Str × Bool)))
  | submissionCreate (accountId : Str) (emailId : Str) (identityId : Option Str)
deriving DecidableEq

/-- The original email fetched by `reply_to_email`. -/
structure OriginalEmail where
  id : Str
  subject : Option Str
  fromAddr : Option (List EmailAddress)
  toAddr : Option (List EmailAddress)
  cc : Option (List EmailAddress)
  replyTo : Option (List EmailAddress)
  references : Option (List Str)
deriving DecidableEq

/-- Server responses consumed by the handlers. -/
structure ProtocolEnv where
  identityFor : Str → Option (Str × Str)
  draftsMailboxId : Option Str
  createdEmailId : Option Str
  submissionId : Option Str
  originalEmail : Option OriginalEmail
  emailSetUpdateText : Str
  draftUpdated : Bool

/-- The identity-derived from address: present only when an identity id was
given and the server returned that identity. -/
def fromAddress (env : ProtocolEnv) (identityId : Option Str) :
    Option (List EmailAddress) :=
  match identityId with
  | none => none
  | some i =>
    match env.identityFor i with
    | none => none
    | some p => some [{ name := some p.1, email := p.2 }]

/-- The identity-fetch calls issued before composing: one `Identity.get`
when an identity id was provided. -/
def identityCalls (accountId : Str) (identityId : Option Str) :
    List ProtocolCall :=
  match identityId with
  | none => []
  | some i => [.identityGet accountId [i]]

/-- Abbreviated rendering of the send-result JSON
`{emailId, submissionId, sent}`. -/
def renderSendResult (emailId : Str) (submissionId : Option Str) : Str :=
  str "emailId=" ++ emailId ++ str " submissionId="
    ++ submissionId.getD (str "none") ++ str " sent="
    ++ (if submissionId.isSome then str "true" else str "false")

/-- Arguments of `send_email` and `create_draft` (identical schemas). -/
structure SendEmailArgs where
  account : Option Str
  toAddr : List EmailAddress
  cc : Option (List EmailAddress)
  bcc : Option (List EmailAddress)
  subject : Str
  textBody : Option Str
  htmlBody : Option Str
  identityId : Option Str
deriving DecidableEq

/-- The `send_email` handler. -/
def sendEmail (reg : Registry) (env : ProtocolEnv) (args : SendEmailArgs) :
    CallResult × List ProtocolCall :=
  let label := str "Error sending email: "
  match getAccount reg args.account with
  | .error e => (.failure (label ++ e), [])
  | .ok account =>
    if !account.hasSubmission then
      (.failure (label ++ str "account \"" ++ account.name
        ++ str "\" does not support email submission"), [])
    else if !(jsTruthy args.textBody) && !(jsTruthy args.htmlBody) then
      (.failure (label ++ str "Either textBody or htmlBody must be provided"), [])
    else
      let calls := identityCalls account.accountId args.identityId
        ++ [.mailboxGetDrafts account.accountId,
            .emailCreate account.accountId
              { mailboxId := env.draftsMailboxId
                subject := some args.subject
                fromAddr := fromAddress env args.identityId
                toAddr := args.toAddr
                cc := args.cc
                bcc := args.bcc
                keywords := [(str "$draft", true)]
                hasText := jsTruthy args.textBody
                hasHtml := jsTruthy args.htmlBody
                inReplyTo := none
                references := none }]
      match env.createdEmailId with
      | none => (.failure (label ++ str "Failed to create email draft"), calls)
      | some emailId =>
        (.success (renderSendResult emailId env.submissionId),
         calls ++ [.submissionCreate account.accountId emailId args.identityId])

/-- Arguments of `reply_to_email`. -/
structure ReplyArgs where
  account : Option Str
  emailId : Str
  replyAll : Bool
  subject : Option Str
  textBody : Option Str
  htmlBody : Option Str
  identityId : Option Str
deriving DecidableEq

/-- The reply recipients: the original's reply-to when non-empty, else its
from, else nobody. -/
def replyRecipients (orig : OriginalEmail) : List EmailAddress :=
  (match orig.replyTo with
   | some l => if l.isEmpty then orig.fromAddr else some l
   | none => orig.fromAddr).getD []

/-- The reply CC list: the original's to and cc when replying to all. -/
def replyCc (replyAll : Bool) (orig : OriginalEmail) : List EmailAddress :=
  if replyAll then orig.toAddr.getD [] ++ orig.cc.getD [] else []

/-- The reply subject: the explicit one when truthy, else the original
subject with a single `"Re: "` prepended (a missing original subject renders
as the JS string `"undefined"`). -/
def replySubject (explicit : Option Str) (orig : OriginalEmail) : Str :=
  if jsTruthy explicit then explicit.getD []
  else
    match orig.subject with
    | some s => if (str "Re: ").isPrefixOf s then s else str "Re: " ++ s
    | none => str "Re: undefined"

/-- The references chain of the reply: the original's references with its id
appended, or just its id. -/
def replyReferences (orig : OriginalEmail) : List Str :=
  match orig.references with
  | some refs => refs ++ [orig.id]
  | none => [orig.id]

/-- The `reply_to_email` handler. -/
def replyToEmail (reg : Registry) (env : ProtocolEnv) (args : ReplyArgs) :
    CallResult × List ProtocolCall :=
  let label := str "Error replying to email: "
  match getAccount reg args.account with
  | .error e => (.failure (label ++ e), [])
  | .ok account =>
    if !account.hasSubmission then
      (.failure (label ++ str "account \"" ++ account.name
        ++ str "\" does not support email submission"), [])
    else if !(jsTruthy args.textBody) && !(jsTruthy args.htmlBody) then
      (.failure (label ++ str "Either textBody or htmlBody must be provided"), [])
    else
      let calls0 := identityCalls account.accountId args.identityId
        ++ [.emailGet account.accountId [args.emailId]]
      match env.originalEmail with
      | none => (.failure (label ++ str "Original email not found"), calls0)
      | some orig =>
        let calls := calls0
          ++ [.mailboxGetDrafts account.accountId,
              .emailCreate account.accountId
                { mailboxId := env.draftsMailboxId
                  subject := some (replySubject args.subject orig)
                  fromAddr := fromAddress env args.identityId
                  toAddr := replyRecipients orig
                  cc := some (replyCc args.replyAll orig)
                  bcc := none
                  keywords := [(str "$draft", true)]
                  hasText := jsTruthy args.textBody
                  hasHtml := jsTruthy args.htmlBody
                  inReplyTo := some [orig.id]
                  references := some (replyReferences orig) }]
        match env.createdEmailId with
        | none => (.failure (label ++ str "Failed to create reply draft"), calls)
        | some emailId =>
          (.success (renderSendResult emailId env.submissionId),
           calls ++ [.submissionCreate account.accountId emailId args.identityId])

/-- The `create_draft` handler (write-access gate instead of the submission
gate, lowercase messages, and no submission step). -/
def createDraft (reg : Registry) (env : ProtocolEnv) (args : SendEmailArgs) :
    CallResult × List ProtocolCall :=
  let label := str "error creating draft: "
  match getAccount reg args.account with
  | .error e => (.failure (label ++ e), [])
  | .ok account =>
    if account.isReadOnly then
      (.failure (label ++ str "account \"" ++ account.name
        ++ str "\" is read-only"), [])
    else if !(jsTruthy args.textBody) && !(jsTruthy args.htmlBody) then
      (.failure (label ++ str "either textBody or htmlBody must be provided"), [])
    else
      let calls := identityCalls account.accountId args.identityId
        ++ [.mailboxGetDrafts account.accountId,
            .emailCreate account.accountId
              { mailboxId := env.draftsMailboxId
                subject := some args.subject
                fromAddr := fromAddress env args.identityId
                toAddr := args.toAddr
                cc := args.cc
                bcc := args.bcc
                keywords := [(str "$draft", true)]
                hasText := jsTruthy args.textBody
                hasHtml := jsTruthy args.htmlBody
                inReplyTo := none
                references := none }]
      match env.createdEmailId with
      | none => (.failure (label ++ str "failed to create draft"), calls)
      | some draftId =>
        (.success (str "draftId=" ++ draftId ++ str " created=true"), calls)

/-- Arguments of `mark_emails`. -/
structure MarkEmailsArgs where
  account : Option Str
  ids : List Str
  seen : Option Bool
  flagged : Option Bool
deriving DecidableEq

/-- The keyword patch built for each email id: `$seen` and `$flagged`
entries only for the parameters that were provided (both omitted yields the
empty keywords object). -/
def keywordsPatch (seen flagged : Option Bool) : List (Str × Bool) :=
  (match seen with | some b => [(str "$seen", b)] | none => [])
    ++ (match flagged with | some b => [(str "$flagged", b)] | none => [])

/-- The `mark_emails` handler: read-only accounts are rejected; otherwise an
`Email.set` update is issued mapping every listed id to its keyword patch,
with no validation on the patch being non-empty. -/
def markEmails (reg : Registry) (env : ProtocolEnv) (args : MarkEmailsArgs) :
    CallResult × List ProtocolCall :=
  let label := str "Error marking emails: "
  match getAccount reg args.account with
  | .error e => (.failure (label ++ e), [])
  | .ok account =>
    if account.isReadOnly then
      (.failure (label ++ str "account \"" ++ account.name
        ++ str "\" is read-only"), [])
    else
      let updates := args.ids.map
        (fun id => (id, keywordsPatch args.seen args.flagged))
      (.success env.emailSetUpdateText,
       [.emailUpdate account.accountId updates])

/-! Section: Helper lemmas -/

theorem contains_iff_mem {l : Str} {c : Char} : l.contains c = true ↔ c ∈ l :=
  List.elem_iff

theorem takeWhile_append_colon (u rest : Str) (h : ∀ c ∈ u, c ≠ ':') :
    (u ++ ':' :: rest).takeWhile (fun c => c != ':') = u := by
  induction u with
  | nil => simp [List.takeWhile]
  | cons c t ih =>
    have hc : c ≠ ':' := h c (by simp)
    have ht : ∀ x ∈ t, x ≠ ':' := fun x hx => h x (by simp [hx])
    have hcb : (c != ':') = true := bne_iff_ne.mpr hc
    simp [List.takeWhile, hcb, ih ht]

theorem drop_append_colon (u rest : Str) :
    (u ++ ':' :: rest).drop (u.length + 1) = rest := by
  have : u ++ ':' :: rest = (u ++ [':']) ++ rest := by simp
  rw [this]
  have hl : u.length + 1 = (u ++ [':']).length := by simp
  rw [hl, List.drop_left]

theorem contains_colon_append (u rest : Str) :
    (u ++ ':' :: rest).contains ':' = true :=
  contains_iff_mem.mpr (by simp)

theorem jsSplit2_append (u rest : Str) (h : ∀ c ∈ u, c ≠ ':') :
    jsSplit2 (u ++ ':' :: rest) = (u, rest.takeWhile (fun c => c != ':')) := by
  simp only [jsSplit2, takeWhile_append_colon u rest h, drop_append_colon u rest]

theorem containsStr_of_isPrefixOf {hay needle : Str}
    (h : needle.isPrefixOf hay = true) : containsStr hay needle = true := by
  unfold containsStr
  simp [h]

theorem containsStr_append_right (a : Str) {b k : Str}
    (h : containsStr b k = true) : containsStr (a ++ b) k = true := by
  induction a with
  | nil => simpa using h
  | cons x t ih =>
    rw [List.cons_append]
    unfold containsStr
    split
    · rfl
    · exact ih

theorem isPrefixOf_self_append (k b : Str) : k.isPrefixOf (k ++ b) = true := by
  induction k with
  | nil => simp [List.isPrefixOf]
  | cons c t ih => simp [List.isPrefixOf, ih]

theorem containsStr_prefix_self (k b : Str) : containsStr (k ++ b) k = true :=
  containsStr_of_isPrefixOf (isPrefixOf_self_append k b)

theorem containsStr_refl (k : Str) : containsStr k k = true := by
  have h := containsStr_prefix_self k []
  rwa [List.append_nil] at h

theorem contains_join_of_mem (sep : Str) {keys : List Str} {k : Str}
    (h : k ∈ keys) : containsStr (joinSep sep keys) k = true := by
  induction keys with
  | nil => cases h
  | cons x xs ih =>
    cases xs with
    | nil =>
      have : k = x := by simpa using h
      subst this
      exact containsStr_refl k
    | cons y ys =>
      have he : joinSep sep (x :: y :: ys)
          = x ++ (sep ++ joinSep sep (y :: ys)) := by
        show x ++ sep ++ joinSep sep (y :: ys) = _
        rw [List.append_assoc]
      rcases List.mem_cons.mp h with hk | hk
      · subst hk
        rw [he]
        exact containsStr_prefix_self k _
      · rw [he]
        exact containsStr_append_right x
          (containsStr_append_right sep (ih hk))

theorem parseToken_ok_iff {t : Str} {c : AccountConfig} :
    parseToken t = .ok c ↔
      t.contains ':' = true ∧ t.takeWhile (fun c => c != ':') ≠ [] ∧
        c = { name := t.takeWhile (fun c => c != ':'), bearerToken := t } := by
  unfold parseToken
  dsimp only
  split
  · next hcol =>
    have hc : t.contains ':' = false := by simpa using hcol
    constructor
    · intro h; cases h
    · rintro ⟨h1, -, -⟩
      rw [h1] at hc
      cases hc
  · next hcol =>
    have hc : t.contains ':' = true := by simpa using hcol
    split
    · next hemp =>
      rw [List.isEmpty_iff] at hemp
      constructor
      · intro h; cases h
      · rintro ⟨-, h2, -⟩
        exact absurd hemp h2
    · next hemp =>
      have h2 : t.takeWhile (fun c => c != ':') ≠ [] := by
        simpa [List.isEmpty_iff] using hemp
      constructor
      · intro h
        cases h
        exact ⟨hc, h2, rfl⟩
      · rintro ⟨-, -, rfl⟩
        rfl

theorem parseToken_ok_of {t : Str} (h1 : t.contains ':' = true)
    (h2 : t.takeWhile (fun c => c != ':') ≠ []) :
    parseToken t = .ok { name := t.takeWhile (fun c => c != ':'),
                         bearerToken := t } :=
  parseToken_ok_iff.mpr ⟨h1, h2, rfl⟩

theorem parseTokenList_ok_names :
    ∀ ts res, parseTokenList ts = .ok res → ∀ c ∈ res, c.name ≠ [] := by
  intro ts
  induction ts with
  | nil =>
    intro res h c hc
    cases h
    cases hc
  | cons t ts ih =>
    intro res h c hc
    unfold parseTokenList at h
    cases hpt : parseToken t with
    | error e => rw [hpt] at h; cases h
    | ok c0 =>
      rw [hpt] at h
      cases hrest : parseTokenList ts with
      | error e => rw [hrest] at h; cases h
      | ok cs =>
        rw [hrest] at h
        cases h
        rcases List.mem_cons.mp hc with rfl | hmem
        · rcases parseToken_ok_iff.mp hpt with ⟨_, h2, rfl⟩
          exact h2
        · exact ih cs hrest c hmem

theorem parseTokenList_map_ok :
    ∀ ts : List Str,
      (∀ t ∈ ts, t.contains ':' = true ∧ t.takeWhile (fun c => c != ':') ≠ []) →
      parseTokenList ts = .ok (ts.map fun t =>
        { name := t.takeWhile (fun c => c != ':'), bearerToken := t }) := by
  intro ts
  induction ts with
  | nil => intro _; rfl
  | cons t ts ih =>
    intro h
    have ht := h t (by simp)
    have hts : ∀ x ∈ ts, x.contains ':' = true ∧
        x.takeWhile (fun c => c != ':') ≠ [] :=
      fun x hx => h x (by simp [hx])
    unfold parseTokenList
    rw [parseToken_ok_of ht.1 ht.2, ih hts]
    rfl

theorem parseTokenList_first_error :
    ∀ (good : List Str) (bad : Str) (rest : List Str) (e : Str),
      (∀ t ∈ good, ∃ c, parseToken t = .ok c) →
      parseToken bad = .error e →
      parseTokenList (good ++ bad :: rest) = .error e := by
  intro good
  induction good with
  | nil =>
    intro bad rest e _ hb
    rw [List.nil_append]
    unfold parseTokenList
    rw [hb]
    rfl
  | cons t ts ih =>
    intro bad rest e hg hb
    obtain ⟨c, hc⟩ := hg t (by simp)
    rw [List.cons_append]
    unfold parseTokenList
    rw [hc, ih bad rest e (fun x hx => hg x (by simp [hx])) hb]
    rfl

theorem contains_mem_iff {α : Type} [BEq α] [LawfulBEq α] {l : List α} {c : α} :
    l.contains c = true ↔ c ∈ l :=
  List.elem_iff

/-- Whether an `Except` computation succeeded. -/
def exceptIsOk {α : Type} : Except Str α → Bool
  | .ok _ => true
  | .error _ => false

theorem initAccount_ok_iff {a : AccountInit} {info : AccountInfo} :
    initAccount a = .ok info ↔
      a.session.capabilities.contains mailCapability = true ∧
        info = { name := a.name
                 accountId := a.accountId
                 isReadOnly := a.account.isReadOnly
                 hasSubmission :=
                   a.session.capabilities.contains submissionCapability
                     && !a.account.isReadOnly } := by
  unfold initAccount
  split
  · next hmail =>
    have hm : a.session.capabilities.contains mailCapability = false := by
      simpa using hmail
    constructor
    · intro h; cases h
    · rintro ⟨h1, -⟩
      rw [h1] at hm
      cases hm
  · next hmail =>
    have hm : a.session.capabilities.contains mailCapability = true := by
      simpa using hmail
    constructor
    · intro h
      cases h
      exact ⟨hm, rfl⟩
    · rintro ⟨-, rfl⟩
      rfl

theorem initAccount_error_of_no_mail {a : AccountInit}
    (h : a.session.capabilities.contains mailCapability = false) :
    initAccount a = .error (mailCapErrorMsg a.name) := by
  unfold initAccount
  rw [h]
  rfl

theorem initAccounts_ok_mail :
    ∀ inits reg, initAccounts inits = .ok reg →
      ∀ a ∈ inits, a.session.capabilities.contains mailCapability = true := by
  intro inits
  induction inits with
  | nil =>
    intro reg _ a ha
    cases ha
  | cons x xs ih =>
    intro reg h a ha
    unfold initAccounts at h
    cases hx : initAccount x with
    | error e => rw [hx] at h; cases h
    | ok info =>
      rw [hx] at h
      cases hrest : initAccounts xs with
      | error e => rw [hrest] at h; cases h
      | ok tail =>
        rcases List.mem_cons.mp ha with rfl | hmem
        · exact (initAccount_ok_iff.mp hx).1
        · exact ih tail hrest a hmem

theorem initAccounts_fails_of_bad :
    ∀ inits (a : AccountInit), a ∈ inits →
      a.session.capabilities.contains mailCapability = false →
      exceptIsOk (initAccounts inits) = false := by
  intro inits
  induction inits with
  | nil =>
    intro a ha
    cases ha
  | cons x xs ih =>
    intro a ha hbad
    unfold initAccounts
    rcases List.mem_cons.mp ha with rfl | hmem
    · rw [initAccount_error_of_no_mail hbad]
      rfl
    · cases hx : initAccount x with
      | error e => rfl
      | ok info =>
        have := ih a hmem hbad
        cases hrest : initAccounts xs with
        | error e => rfl
        | ok tail =>
          rw [hrest] at this
          cases this

theorem takeWhile_colon_ne_nil {t : Str} (h1 : t ≠ [])
    (h2 : t.head? ≠ some ':') : t.takeWhile (fun c => c != ':') ≠ [] := by
  cases t with
  | nil => exact absurd rfl h1
  | cons c0 t0 =>
    have hc : c0 ≠ ':' := by
      intro h
      exact h2 (by simp [h])
    have hcb : (c0 != ':') = true := bne_iff_ne.mpr hc
    simp [List.takeWhile, hcb]

/-! Section: Claim C2: non-empty account names -/

/-- C2 counterexample: the single-account fallback accepts the token
`":pw"` and produces a credential whose name is empty, without failing; so
the claim that every accepted input yields non-empty names (and that
empty-name inputs fail) is false for the fallback form. -/
theorem c2_counterexample :
    parseAccounts none (some (str ":pw"))
      = .ok [{ name := [], bearerToken := str ":pw" }] := by
  rfl

/-- C2 (amended): in the multi-account form every produced credential has a
non-empty name (empty names fail); in the single-account fallback the
produced name is empty exactly when the token starts with `':'`, and parsing
still succeeds in that case. -/
theorem c2_name_nonempty :
    (∀ blob creds, parseAccountsMulti blob = .ok creds →
       ∀ c ∈ creds, c.name ≠ [])
    ∧ (∀ t : Str, ∀ c ∈ parseAccountsSingle t,
       (c.name = [] ↔ t.head? = some ':')) := by
  constructor
  · intro blob creds h c hc
    exact parseTokenList_ok_names (parseTokens blob) creds h c hc
  · intro t c hc
    have hceq : c = { name :=
        (if t.contains ':' then t.takeWhile (fun c => c != ':')
         else str "default"), bearerToken := t } := by
      simpa [parseAccountsSingle] using hc
    subst hceq
    show (if t.contains ':' then t.takeWhile (fun c => c != ':')
          else str "default") = [] ↔ t.head? = some ':'
    by_cases hcol : t.contains ':' = true
    · rw [if_pos hcol]
      cases t with
      | nil => exact absurd hcol (by decide)
      | cons c0 t0 =>
        by_cases hc0 : c0 = ':'
        · subst hc0
          constructor
          · intro _; rfl
          · intro _
            simp [List.takeWhile]
        · have hcb : (c0 != ':') = true := bne_iff_ne.mpr hc0
          have hne : (c0 :: t0).takeWhile (fun c => c != ':')
              = c0 :: t0.takeWhile (fun c => c != ':') := by
            simp [List.takeWhile, hcb]
          rw [hne]
          constructor
          · intro h
            exact List.noConfusion h
          · intro h
            have : c0 = ':' := by simpa using h
            exact absurd this hc0
    · rw [if_neg hcol]
      constructor
      · intro h
        exact absurd h (by decide)
      · intro h
        cases t with
        | nil => exact Option.noConfusion h
        | cons c0 t0 =>
          have : c0 = ':' := by simpa using h
          subst this
          exact absurd (contains_mem_iff.mpr (by simp)) hcol

/-- C2 witness: the amended statement evaluated at the blob `"a:b"` for the
multi-account part and the token `":pw"` for the fallback part. -/
theorem c2_witness :
    ({ name := str "a", bearerToken := str "a:b" } : AccountConfig).name ≠ []
    ∧ (({ name := [], bearerToken := str ":pw" } : AccountConfig).name = []
        ↔ (str ":pw").head? = some ':') :=
  ⟨c2_name_nonempty.1 (str "a:b")
      [{ name := str "a", bearerToken := str "a:b" }] rfl _ (by simp),
   c2_name_nonempty.2 (str ":pw")
      { name := [], bearerToken := str ":pw" } (by simp [parseAccountsSingle, str])⟩

/-! Section: Claim C5: multi-account parser round trip -/

/-- C5 counterexample: the blob `":x"` is a single line that is non-empty
after trimming and contains a `':'`, yet the parser throws the empty-name
error instead of returning one credential; so the round-trip claim as
stated is false. -/
theorem c5_counterexample :
    parseAccountsMulti (str ":x")
      = .error (str "account name cannot be empty") := by
  rfl

/-- C5 (amended): for every multi-account blob whose lines are all non-empty
after trimming and contain a `':'` preceded by at least one character (a
non-empty name), the parser returns exactly one credential per line, in
line order, with the name being the trimmed line's segment before its first
`':'` and the secret the whole trimmed line. -/
theorem c5_round_trip (blob : Str)
    (h : ∀ l ∈ jsSplitOn '\n' blob,
      trim l ≠ [] ∧ (trim l).contains ':' = true ∧ (trim l).head? ≠ some ':') :
    parseAccountsMulti blob
      = .ok ((jsSplitOn '\n' blob).map (fun l =>
          { name := (trim l).takeWhile (fun c => c != ':')
            bearerToken := trim l })) := by
  have hfilter : parseTokens blob = (jsSplitOn '\n' blob).map trim := by
    unfold parseTokens
    apply List.filter_eq_self.mpr
    intro x hx
    rcases List.mem_map.mp hx with ⟨l, hl, rfl⟩
    simpa [List.isEmpty_eq_false] using (h l hl).1
  have hall : ∀ t ∈ (jsSplitOn '\n' blob).map trim,
      t.contains ':' = true ∧ t.takeWhile (fun c => c != ':') ≠ [] := by
    intro t ht
    rcases List.mem_map.mp ht with ⟨l, hl, rfl⟩
    obtain ⟨h1, h2, h3⟩ := h l hl
    exact ⟨h2, takeWhile_colon_ne_nil h1 h3⟩
  unfold parseAccountsMulti
  rw [hfilter, parseTokenList_map_ok _ hall, List.map_map]
  rfl

/-- C5 witness: the amended round trip evaluated at the two-line blob
`"a:1\nb:2"`. -/
theorem c5_witness :
    parseAccountsMulti (str "a:1\nb:2")
      = .ok ((jsSplitOn '\n' (str "a:1\nb:2")).map (fun l =>
          { name := (trim l).takeWhile (fun c => c != ':')
            bearerToken := trim l })) :=
  c5_round_trip (str "a:1\nb:2") (by decide)

/-! Section: Claim C6: malformed-entry error preview -/

/-- C6 counterexample: the 30-character colon-free entry
`"invalid token format, expected"` coincides with the start of the fixed
error text, so the thrown message contains the entry's full text even
though the entry is longer than 20 characters; the claim's never-the-full-
text clause is false. -/
theorem c6_counterexample :
    parseAccountsMulti (str "invalid token format, expected")
      = .error (tokenErrHead ++ (str "invalid token format, expected").take 20)
    ∧ 20 < (str "invalid token format, expected").length
    ∧ containsStr
        (tokenErrHead ++ (str "invalid token format, expected").take 20)
        (str "invalid token format, expected") = true := by
  refine ⟨rfl, by decide, by decide⟩

/-- C6 (amended): when the first entry the parser fails on is a trimmed
non-empty entry with no `':'`, the thrown message is the fixed format text
followed by exactly the first 20 characters of that entry, so the variable
part of the message carries at most 20 characters of the entry (the fixed
text itself can coincide with the entry's text, and an earlier empty-name
entry fails with a different error first). -/
theorem c6_truncated_preview (blob : Str) (good : List Str) (bad : Str)
    (rest : List Str) (hsplit : parseTokens blob = good ++ bad :: rest)
    (hgood : ∀ t ∈ good, ∃ c, parseToken t = .ok c)
    (hbad : bad.contains ':' = false) :
    parseAccountsMulti blob = .error (tokenErrHead ++ bad.take 20)
    ∧ (tokenErrHead ++ bad.take 20).length ≤ tokenErrHead.length + 20 := by
  have hb : parseToken bad = .error (tokenErrHead ++ bad.take 20) := by
    unfold parseToken
    rw [hbad]
    rfl
  constructor
  · unfold parseAccountsMulti
    rw [hsplit]
    exact parseTokenList_first_error good bad rest _ hgood hb
  · rw [List.length_append, List.length_take]
    have : min 20 bad.length ≤ 20 := Nat.min_le_left _ _
    omega

/-- C6 witness: the amended statement evaluated at the blob
`"a:1\nthis-secret-is-way-longer-than-twenty"`. -/
theorem c6_witness :
    parseAccountsMulti (str "a:1\nthis-secret-is-way-longer-than-twenty")
      = .error (tokenErrHead
          ++ (str "this-secret-is-way-longer-than-twenty").take 20)
    ∧ (tokenErrHead
          ++ (str "this-secret-is-way-longer-than-twenty").take 20).length
        ≤ tokenErrHead.length + 20 :=
  c6_truncated_preview (str "a:1\nthis-secret-is-way-longer-than-twenty")
    [str "a:1"] (str "this-secret-is-way-longer-than-twenty") []
    (by decide)
    (by
      intro t ht
      have : t = str "a:1" := by simpa using ht
      subst this
      exact ⟨{ name := str "a", bearerToken := str "a:1" }, rfl⟩)
    (by decide)

/-! Section: Claim C1: Bearer-to-Basic rewriting -/

/-- C1 counterexample: for the secret `"a:b:c"` the limit-2 split makes the
password the segment between the first and second `':'`, so a matching
request with an Authorization header is rewritten to base64 of `"a:b"`,
not base64 of the claimed username plus everything after the first `':'`
(`"a:b:c"`). -/
theorem c1_counterexample :
    adapterRequestHeaders (str "a:b:c") (str "mail.example.com")
        { url := str "https://mail.example.com/jmap/api"
          headers := [(str "Authorization", str "Bearer X")] }
      = [(str "Authorization", str "Basic " ++ btoa (str "a:b"))]
    ∧ str "Basic " ++ btoa (str "a:b")
        ≠ str "Basic " ++ btoa (str "a:b:c") := by
  refine ⟨by decide, by decide⟩

/-- C1 (amended): for a secret containing a `':'`, write it as
`u ++ ':' :: rest` with `u` colon-free; the adapter splits it with JS
`split(":", 2)`, so the username is `u` and the password is the part of
`rest` before the next `':'` (everything after the first `':'` only when
the secret has exactly one `':'`).  A matching outbound request that
carries an Authorization header gets it replaced by Basic base64 of
`username ':' password`; a matching request without one, and any request
to a non-matching URL, keeps its headers untouched. -/
theorem c1_basic_auth_rewrite (u rest hostname url : Str)
    (hs : List (Str × Str)) (hu : ∀ c ∈ u, c ≠ ':') :
    (urlMatches hostname url = true →
      headersHas hs (str "Authorization") = true →
      adapterRequestHeaders (u ++ ':' :: rest) hostname
          { url := url, headers := hs }
        = headersSet hs (str "Authorization")
            (str "Basic "
              ++ btoa (u ++ ':' :: rest.takeWhile (fun c => c != ':'))))
    ∧ (urlMatches hostname url = true →
      headersHas hs (str "Authorization") = false →
      adapterRequestHeaders (u ++ ':' :: rest) hostname
          { url := url, headers := hs } = hs)
    ∧ (urlMatches hostname url = false →
      adapterRequestHeaders (u ++ ':' :: rest) hostname
          { url := url, headers := hs } = hs) := by
  have hcol := contains_colon_append u rest
  have hsplit := jsSplit2_append u rest hu
  refine ⟨?_, ?_, ?_⟩
  · intro hm ha
    simp only [adapterRequestHeaders, hcol, if_true, hsplit, hm,
      rewriteAuthHeaders, ha]
  · intro hm ha
    simp only [adapterRequestHeaders, hcol, if_true, hsplit, hm,
      rewriteAuthHeaders, ha]
    simp
  · intro hm
    simp only [adapterRequestHeaders, hcol, if_true, hsplit, hm]
    simp

/-- C1 witness: the amended statement evaluated for the secret
`"alice:s3cret"`, the host `"mail.example.com"`, a matching request with a
Bearer header, and a non-matching request. -/
theorem c1_witness :
    adapterRequestHeaders (str "alice:s3cret") (str "mail.example.com")
        { url := str "https://mail.example.com/jmap/api"
          headers := [(str "Authorization", str "Bearer X")] }
      = headersSet [(str "Authorization", str "Bearer X")]
          (str "Authorization")
          (str "Basic "
            ++ btoa (str "alice"
                ++ ':' :: (str "s3cret").takeWhile (fun c => c != ':'))) :=
  (c1_basic_auth_rewrite (str "alice") (str "s3cret")
      (str "mail.example.com") (str "https://mail.example.com/jmap/api")
      [(str "Authorization", str "Bearer X")] (by decide)).1
    (by decide) (by decide)

/-! Section: Claim C7: apiUrl repair idempotence -/

/-- C7 counterexample: for a URL containing two occurrences of `"http://"`
and `":8080"`, the first repair still leaves one occurrence of each, so a
second application changes the string again; the for-every-URL idempotence
claim is false. -/
theorem c7_counterexample :
    repairApiUrl (repairApiUrl (str "http://a:8080/http://b:8080"))
      ≠ repairApiUrl (str "http://a:8080/http://b:8080") := by
  decide

/-- C7 (amended): an already-secure or already-port-free URL is left
unchanged, and applying the repair twice agrees with applying it once
whenever the once-repaired URL no longer contains `"http://"` or no longer
contains `":8080"` (as holds for URLs with at most one occurrence of each
pattern); a URL with further occurrences can change again. -/
theorem c7_repair_idempotence (u : Str) :
    ((containsStr u (str "http://") = false
        ∨ containsStr u (str ":8080") = false) → repairApiUrl u = u)
    ∧ ((containsStr (repairApiUrl u) (str "http://") = false
        ∨ containsStr (repairApiUrl u) (str ":8080") = false) →
      repairApiUrl (repairApiUrl u) = repairApiUrl u) := by
  have hnoop : ∀ v : Str,
      (containsStr v (str "http://") = false
        ∨ containsStr v (str ":8080") = false) → repairApiUrl v = v := by
    intro v hv
    unfold repairApiUrl
    rcases hv with hv | hv <;> rw [hv] <;> simp
  exact ⟨hnoop u, hnoop (repairApiUrl u)⟩

/-- C7 witness: the amended statement evaluated at the already-secure URL
`"https://mail.example.com/jmap/"` and, for the conditional idempotence
part, at the reparable URL `"http://mail.example.com:8080/jmap/"`. -/
theorem c7_witness :
    repairApiUrl (str "https://mail.example.com/jmap/")
      = str "https://mail.example.com/jmap/"
    ∧ repairApiUrl (repairApiUrl (str "http://mail.example.com:8080/jmap/"))
      = repairApiUrl (str "http://mail.example.com:8080/jmap/") :=
  ⟨(c7_repair_idempotence (str "https://mail.example.com/jmap/")).1
      (by decide),
   (c7_repair_idempotence (str "http://mail.example.com:8080/jmap/")).2
      (by decide)⟩

/-! Section: Claim C3: submission flag conjunction -/

/-- C3: for every account that initializes successfully, the stored
`hasSubmission` flag is true exactly when the session capability set
contains the submission capability identifier and the account descriptor is
not read-only; in particular a read-only account never gets
`hasSubmission`. -/
theorem c3_submission_flag (a : AccountInit) (info : AccountInfo)
    (h : initAccount a = .ok info) :
    (info.hasSubmission = true ↔
      submissionCapability ∈ a.session.capabilities
        ∧ a.account.isReadOnly = false)
    ∧ (a.account.isReadOnly = true → info.hasSubmission = false) := by
  obtain ⟨-, rfl⟩ := initAccount_ok_iff.mp h
  constructor
  · show (_ && _) = true ↔ _
    rw [Bool.and_eq_true, contains_mem_iff, Bool.not_eq_eq_eq_not,
      Bool.not_true]
  · intro hro
    show (_ && _) = false
    rw [hro]
    simp

/-- A concrete read-write account initialization input whose session
advertises the mail and submission capabilities. -/
def initFull : AccountInit :=
  { name := str "acc", accountId := str "id"
    session := { capabilities := [mailCapability, submissionCapability] }
    account := { isReadOnly := false } }

/-- The registry entry produced for `initFull`. -/
def infoFull : AccountInfo :=
  { name := str "acc", accountId := str "id", isReadOnly := false,
    hasSubmission := true }

/-- C3 witness: a read-write account whose session advertises both
capabilities is initialized with `hasSubmission`, and its flag matches the
conjunction; evaluated concretely. -/
theorem c3_witness :
    (infoFull.hasSubmission = true ↔
      submissionCapability ∈ initFull.session.capabilities
        ∧ initFull.account.isReadOnly = false)
    ∧ (initFull.account.isReadOnly = true → infoFull.hasSubmission = false) :=
  c3_submission_flag initFull infoFull rfl

/-! Section: Claim C4: mandatory mail capability gate -/

/-- C4: an account whose session lacks the mail capability makes
initialization fail with an error naming that account (the name occurs in
the message), successful startup registers only accounts whose sessions had
the mail capability, and a configuration containing such an account makes
the whole startup initialization fail, so no registry is produced. -/
theorem c4_mail_gate :
    (∀ a : AccountInit, mailCapability ∉ a.session.capabilities →
      initAccount a = .error (mailCapErrorMsg a.name)
        ∧ containsStr (mailCapErrorMsg a.name) a.name = true)
    ∧ (∀ inits reg, initAccounts inits = .ok reg →
      ∀ a ∈ inits, mailCapability ∈ a.session.capabilities)
    ∧ (∀ inits (a : AccountInit), a ∈ inits →
      mailCapability ∉ a.session.capabilities →
      exceptIsOk (initAccounts inits) = false) := by
  have hcontains : ∀ a : AccountInit, mailCapability ∉ a.session.capabilities →
      a.session.capabilities.contains mailCapability = false := by
    intro a ha
    rcases h : a.session.capabilities.contains mailCapability with _ | _
    · rfl
    · exact absurd (contains_mem_iff.mp h) ha
  refine ⟨?_, ?_, ?_⟩
  · intro a ha
    refine ⟨initAccount_error_of_no_mail (hcontains a ha), ?_⟩
    show containsStr (str "account \"" ++ a.name ++ _) a.name = true
    rw [List.append_assoc]
    exact containsStr_append_right _ (containsStr_prefix_self a.name _)
  · intro inits reg h a ha
    exact contains_mem_iff.mp (initAccounts_ok_mail inits reg h a ha)
  · intro inits a ha hbad
    exact initAccounts_fails_of_bad inits a ha (hcontains a hbad)

/-- A concrete account initialization input whose session advertises only
the submission capability (no mail capability). -/
def initNoMail : AccountInit :=
  { name := str "acc", accountId := str "id"
    session := { capabilities := [submissionCapability] }
    account := { isReadOnly := false } }

/-- C4 witness: the gate evaluated at a one-account configuration whose
session advertises only the submission capability. -/
theorem c4_witness :
    initAccount initNoMail = .error (mailCapErrorMsg initNoMail.name)
    ∧ containsStr (mailCapErrorMsg initNoMail.name) initNoMail.name = true
    ∧ exceptIsOk (initAccounts [initNoMail]) = false :=
  ⟨(c4_mail_gate.1 initNoMail (by decide)).1,
   (c4_mail_gate.1 initNoMail (by decide)).2,
   c4_mail_gate.2.2 [initNoMail] initNoMail (by simp) (by decide)⟩

/-! Section: Claim C8: unknown-account rejection -/

/-- C8: for every non-empty registry and every requested account name not
present in it, the lookup fails with the not-found message, every
configured account name occurs in that message, and any tool handler built
over the lookup returns the structured failure result (a returned value,
not a crash) regardless of its body. -/
theorem c8_unknown_account (reg : Registry) (nm : Str)
    (_hne : reg ≠ []) (hlk : lookupAccount reg nm = none) :
    getAccount reg (some nm) = .error (notFoundMsg nm (registryKeys reg))
    ∧ (∀ k ∈ registryKeys reg,
        containsStr (notFoundMsg nm (registryKeys reg)) k = true)
    ∧ (∀ label body, toolWithAccount label reg (some nm) body
        = .failure (label ++ notFoundMsg nm (registryKeys reg))) := by
  have hget : getAccount reg (some nm)
      = .error (notFoundMsg nm (registryKeys reg)) := by
    show (match lookupAccount reg nm with
          | some a => Except.ok a
          | none => Except.error (notFoundMsg nm (registryKeys reg)))
        = Except.error (notFoundMsg nm (registryKeys reg))
    rw [hlk]
  refine ⟨hget, ?_, ?_⟩
  · intro k hk
    show containsStr (str "account \"" ++ nm ++ _ ++ _) k = true
    exact containsStr_append_right _ (contains_join_of_mem _ hk)
  · intro label body
    unfold toolWithAccount
    rw [hget]
    rfl

/-- A concrete read-write account entry for registry fixtures. -/
def accA : AccountInfo :=
  { name := str "a", accountId := str "i1", isReadOnly := false,
    hasSubmission := true }

/-- A concrete read-only account entry for registry fixtures. -/
def accB : AccountInfo :=
  { name := str "b", accountId := str "i2", isReadOnly := true,
    hasSubmission := false }

/-- A concrete two-account registry fixture. -/
def regAB : Registry := [(str "a", accA), (str "b", accB)]

/-- C8 witness: the two-account registry fixture queried with the unknown
name `"zz"`. -/
theorem c8_witness :
    getAccount regAB (some (str "zz"))
      = .error (notFoundMsg (str "zz") (registryKeys regAB))
    ∧ containsStr (notFoundMsg (str "zz") (registryKeys regAB))
        (str "b") = true
    ∧ toolWithAccount (str "Error searching emails: ") regAB
        (some (str "zz")) (fun _ => .ok (str "unused"))
      = .failure (str "Error searching emails: "
          ++ notFoundMsg (str "zz") (registryKeys regAB)) := by
  have h := c8_unknown_account regAB (str "zz") (by decide) (by decide)
  exact ⟨h.1, h.2.1 (str "b") (by decide),
    h.2.2 (str "Error searching emails: ") (fun _ => .ok (str "unused"))⟩

/-! Section: Claim C9: body-presence guard in the composition handlers -/

/-- A protocol environment fixture with empty server responses. -/
def envEmpty : ProtocolEnv :=
  { identityFor := fun _ => none
    draftsMailboxId := none
    createdEmailId := none
    submissionId := none
    originalEmail := none
    emailSetUpdateText := str "updated"
    draftUpdated := false }

/-- Arguments fixture for the composition handlers with both bodies
absent. -/
def argsNoBody : SendEmailArgs :=
  { account := none
    toAddr := [{ name := none, email := str "x@example.com" }]
    cc := none
    bcc := none
    subject := str "subject"
    textBody := none
    htmlBody := none
    identityId := none }

/-- C9 counterexample: `create_draft` with both bodies absent fails with the
lowercase message `"either textBody or htmlBody must be provided"`; the
claimed message text (capital `'Either'`) does not occur in the returned
error, so the claim's quoted message is wrong for `create_draft`. -/
theorem c9_counterexample :
    createDraft [(str "a", accA)] envEmpty argsNoBody
      = (.failure (str "error creating draft: either textBody or htmlBody must be provided"), [])
    ∧ containsStr
        (str "error creating draft: either textBody or htmlBody must be provided")
        (str "Either textBody or htmlBody must be provided") = false := by
  refine ⟨by decide, by decide⟩

/-- C9 (amended): when the earlier guards pass (account resolved, and the
submission capability for `send_email`/`reply_to_email`, or write access
for `create_draft`) and both `textBody` and `htmlBody` are absent, each
handler fails before issuing any protocol call — the trace is empty, so no
draft is created and no submission is made — with the message
`"Either textBody or htmlBody must be provided"` from `send_email` and
`reply_to_email`, and the lowercase `"either textBody or htmlBody must be
provided"` from `create_draft`. -/
theorem c9_body_guard (reg : Registry) (env : ProtocolEnv) :
    (∀ (args : SendEmailArgs) (acc : AccountInfo),
      getAccount reg args.account = .ok acc → acc.hasSubmission = true →
      args.textBody = none → args.htmlBody = none →
      sendEmail reg env args
        = (.failure (str "Error sending email: "
            ++ str "Either textBody or htmlBody must be provided"), []))
    ∧ (∀ (args : ReplyArgs) (acc : AccountInfo),
      getAccount reg args.account = .ok acc → acc.hasSubmission = true →
      args.textBody = none → args.htmlBody = none →
      replyToEmail reg env args
        = (.failure (str "Error replying to email: "
            ++ str "Either textBody or htmlBody must be provided"), []))
    ∧ (∀ (args : SendEmailArgs) (acc : AccountInfo),
      getAccount reg args.account = .ok acc → acc.isReadOnly = false →
      args.textBody = none → args.htmlBody = none →
      createDraft reg env args
        = (.failure (str "error creating draft: "
            ++ str "either textBody or htmlBody must be provided"), [])) := by
  refine ⟨?_, ?_, ?_⟩
  · intro args acc hacc hsub ht hh
    simp only [sendEmail, hacc, hsub, ht, hh, jsTruthy, Bool.not_true,
      Bool.false_and, Bool.not_false, Bool.true_and]
    rfl
  · intro args acc hacc hsub ht hh
    simp only [replyToEmail, hacc, hsub, ht, hh, jsTruthy, Bool.not_true,
      Bool.false_and, Bool.not_false, Bool.true_and]
    rfl
  · intro args acc hacc hro ht hh
    simp only [createDraft, hacc, hro, ht, hh, jsTruthy, Bool.not_true,
      Bool.false_and, Bool.not_false, Bool.true_and]
    rfl

/-- C9 witness: the amended guard evaluated on a one-account registry with
a writable, submission-capable account and both bodies absent. -/
theorem c9_witness :
    sendEmail [(str "a", accA)] envEmpty argsNoBody
      = (.failure (str "Error sending email: "
          ++ str "Either textBody or htmlBody must be provided"), [])
    ∧ replyToEmail [(str "a", accA)] envEmpty
        { account := none, emailId := str "m1", replyAll := false,
          subject := none, textBody := none, htmlBody := none,
          identityId := none }
      = (.failure (str "Error replying to email: "
          ++ str "Either textBody or htmlBody must be provided"), [])
    ∧ createDraft [(str "a", accA)] envEmpty argsNoBody
      = (.failure (str "error creating draft: "
          ++ str "either textBody or htmlBody must be provided"), []) :=
  ⟨(c9_body_guard [(str "a", accA)] envEmpty).1 argsNoBody accA
      rfl rfl rfl rfl,
   (c9_body_guard [(str "a", accA)] envEmpty).2.1
      { account := none, emailId := str "m1", replyAll := false,
        subject := none, textBody := none, htmlBody := none,
        identityId := none } accA rfl rfl rfl rfl,
   (c9_body_guard [(str "a", accA)] envEmpty).2.2 argsNoBody accA
      rfl rfl rfl rfl⟩

/-! Section: Claim C10: mark_emails with no keyword parameters -/

/-- C10: a `mark_emails` call on a writable account with both `seen` and
`flagged` omitted is not rejected: the handler succeeds and issues exactly
one `Email.set` update whose patch maps each listed id to an empty keywords
object. -/
theorem c10_mark_empty_keywords (reg : Registry) (env : ProtocolEnv)
    (args : MarkEmailsArgs) (acc : AccountInfo)
    (hacc : getAccount reg args.account = .ok acc)
    (hro : acc.isReadOnly = false) (hs : args.seen = none)
    (hf : args.flagged = none) :
    markEmails reg env args
      = (.success env.emailSetUpdateText,
         [.emailUpdate acc.accountId
            (args.ids.map (fun id => (id, ([] : List (Str × Bool)))))]) := by
  simp only [markEmails, hacc, hro, hs, hf, keywordsPatch]
  rfl

/-- C10 witness: the empty-keywords update evaluated on the two-account
registry fixture for two email ids. -/
theorem c10_witness :
    markEmails regAB envEmpty
        { account := some (str "a"), ids := [str "m1", str "m2"],
          seen := none, flagged := none }
      = (.success envEmpty.emailSetUpdateText,
         [.emailUpdate accA.accountId
            [(str "m1", ([] : List (Str × Bool))),
             (str "m2", ([] : List (Str × Bool)))]]) :=
  c10_mark_empty_keywords regAB envEmpty
    { account := some (str "a"), ids := [str "m1", str "m2"],
      seen := none, flagged := none } accA rfl rfl rfl rfl

end JmapMcp
